import Mathlib

/-!
# Verification of the GitHub profile README generator

A shallow embedding of `github_readme_generator.py` (data processing and
rendering pipeline) together with proofs of the specification claims.

JSON records are modelled as structures whose fields are all optional
(`Option`), mirroring Python `dict.get` reads; each `.get(key, default)`
call site becomes an explicit `Option.getD`.  Python string truthiness
(`if s:`) becomes a `≠ ""` test on the defaulted value, and `None`-or-empty
collapses exactly as it does through `dict.get(key, "")`.  Percentages are
modelled as exact rationals (`ℚ`); the script's `count / total * 100`
float expression is embedded as the corresponding exact division.
-/

/-- A repository record, as consumed from the repos JSON array.
Fields mirror the keys read by the script: `name`, `html_url`,
`description`, `language`, `stargazers_count`, `forks_count`, `fork`. -/
structure Repo where
  name : Option String
  html_url : Option String
  description : Option String
  language : Option String
  stargazers_count : Option Nat
  forks_count : Option Nat
  fork : Option Bool
deriving DecidableEq

/-- A profile record, as consumed from the user JSON object. -/
structure Profile where
  name : Option String
  login : Option String
  avatar_url : Option String
  bio : Option String
  location : Option String
  company : Option String
  blog : Option String
  followers : Option Nat
  following : Option Nat
  public_repos : Option Nat
  twitter_username : Option String
  email : Option String
deriving DecidableEq

/-- A commit object inside a push payload; the script only ever takes the
length of the commit list, so no fields are read. -/
structure Commit where
deriving DecidableEq

/-- The `pull_request` sub-object of a pull-request payload. -/
structure PullRequestObj where
  title : Option String
deriving DecidableEq

/-- The `issue` sub-object of an issues / issue-comment payload. -/
structure IssueObj where
  title : Option String
deriving DecidableEq

/-- The `forkee` sub-object of a fork payload. -/
structure ForkeeObj where
  full_name : Option String
deriving DecidableEq

/-- The `repo` sub-object of an event. -/
structure RepoRef where
  name : Option String
deriving DecidableEq

/-- An event payload.  `commits` defaults to `[]` through
`payload.get("commits", [])`, so it is modelled as a plain list; `size`
and `distinct_size` keep their presence information because their
defaults differ between call sites. -/
structure Payload where
  commits : List Commit
  size : Option Nat
  distinct_size : Option Nat
  action : Option String
  pull_request : Option PullRequestObj
  issue : Option IssueObj
  ref_type : Option String
  ref : Option String
  forkee : Option ForkeeObj
deriving DecidableEq

/-- The empty payload dict, the default of `event.get("payload", {})`. -/
def emptyPayload : Payload :=
  ⟨[], none, none, none, none, none, none, none, none⟩

/-- An event record from the public events feed. -/
structure Event where
  type : Option String
  repo : Option RepoRef
  payload : Option Payload
  created_at : Option String
deriving DecidableEq

/-- `o.getD ""`, the meaning of `d.get(key, "")` for string fields. -/
def pget (o : Option String) : String := o.getD ""

/-- Python `s[:n]` on a string: the first `n` code points. -/
def py_take (s : String) (n : Nat) : String := String.mk (s.data.take n)

/-- Inner loop of `escape_pipes`. -/
def escape_pipes_list : List Char → List Char
  | [] => []
  | c :: cs => (if c = '|' then ['\\', '|'] else [c]) ++ escape_pipes_list cs

/-- Python `s.replace("|", "\\|")`: since the pattern is a single
character, this is a per-character substitution. -/
def escape_pipes (s : String) : String := String.mk (escape_pipes_list s.data)

/-- Python `s.startswith(pre)` on code points. -/
def py_startswith (s pre : String) : Bool := pre.data.isPrefixOf s.data

/-- Python `s * n` for strings: `n` concatenated copies of `s`. -/
def py_repeat (s : String) : Nat → String
  | 0 => ""
  | n + 1 => s ++ py_repeat s n

/-- Python `s.capitalize()` (ASCII case mapping suffices for the event
action words that reach it): first character upper-cased, the rest
lower-cased. -/
def py_capitalize (s : String) : String :=
  match s.data with
  | [] => ""
  | c :: cs => String.mk (c.toUpper :: cs.map Char.toLower)

/-- Python truthiness of `s.strip()`: the string has a non-whitespace
character.  This is the test `if s.strip():` used to drop empty sections. -/
def has_non_ws (s : String) : Bool := s.data.any (fun c => !c.isWhitespace)

/-- Gregorian leap-year test, as used by `datetime`. -/
def is_leap (y : Nat) : Bool := y % 4 = 0 && (y % 100 ≠ 0 || y % 400 = 0)

/-- Number of days in a month, as validated by the `datetime` constructor. -/
def days_in_month (y m : Nat) : Nat :=
  if m = 2 then (if is_leap y then 29 else 28)
  else if m = 4 ∨ m = 6 ∨ m = 9 ∨ m = 11 then 30
  else 31

/-- `strftime("%b")`: English month abbreviation (C locale). -/
def month_abbrev : Nat → String
  | 1 => "Jan" | 2 => "Feb" | 3 => "Mar" | 4 => "Apr" | 5 => "May" | 6 => "Jun"
  | 7 => "Jul" | 8 => "Aug" | 9 => "Sep" | 10 => "Oct" | 11 => "Nov" | 12 => "Dec"
  | _ => ""

/-- `strftime("%d")`: zero-padded two-digit day. -/
def two_digits (n : Nat) : String := (if n < 10 then "0" else "") ++ toString n

/-- Numeric value of a decimal digit character. -/
def digit_val (c : Char) : Nat := c.toNat - 48

/-- Parse `created_at` against the exact timestamp shape the spec states
for `strptime`, `YYYY-MM-DDTHH:MM:SSZ`, validating the field ranges that
`datetime` enforces; returns the (year, month, day) on success. -/
def parse_ts (s : String) : Option (Nat × Nat × Nat) :=
  match s.data with
  | [y1, y2, y3, y4, '-', m1, m2, '-', d1, d2, 'T',
     h1, h2, ':', n1, n2, ':', s1, s2, 'Z'] =>
    if [y1, y2, y3, y4, m1, m2, d1, d2, h1, h2, n1, n2, s1, s2].all Char.isDigit then
      let y := ((digit_val y1 * 10 + digit_val y2) * 10 + digit_val y3) * 10 + digit_val y4
      let m := digit_val m1 * 10 + digit_val m2
      let d := digit_val d1 * 10 + digit_val d2
      let hh := digit_val h1 * 10 + digit_val h2
      let mm := digit_val n1 * 10 + digit_val n2
      let ss := digit_val s1 * 10 + digit_val s2
      if 1 ≤ y ∧ 1 ≤ m ∧ m ≤ 12 ∧ 1 ≤ d ∧ d ≤ days_in_month y m ∧
         hh ≤ 23 ∧ mm ≤ 59 ∧ ss ≤ 59 then
        some (y, m, d)
      else none
    else none
  | _ => none

/-- Lines 141–147: parse `created_at` and render it as `"%b %d"`; any
parse failure (including the empty string) yields `""`. -/
def format_date (created : String) : String :=
  match parse_ts created with
  | some (_, m, d) => month_abbrev m ++ " " ++ two_digits d
  | none => ""

/-- `⌊q⌋` computed from the reduced fraction (`Int` division by a
positive denominator floors), kept kernel-reducible. -/
def pyFloor (q : ℚ) : ℤ := q.num / q.den

/-- Python `round` on an exact value: round half to even. -/
def pyRound (q : ℚ) : ℤ :=
  if q - pyFloor q < 1/2 then pyFloor q
  else if 1/2 < q - pyFloor q then pyFloor q + 1
  else if pyFloor q % 2 = 0 then pyFloor q else pyFloor q + 1

/-- Python `f"{q:.1f}"` on an exact nonnegative value: round `10 q` half
to even, then print integer part, a dot, and the single remaining digit. -/
def fmt1 (q : ℚ) : String :=
  toString (pyRound (q * 10) / 10) ++ "." ++ toString (pyRound (q * 10) % 10)

/-- Python truthiness of `repo.get("language")`: present and non-empty. -/
def has_language (r : Repo) : Bool := pget r.language ≠ ""

/-- The language string counted for a repo (only read when truthy). -/
def lang_of (r : Repo) : String := pget r.language

/-- `counter[lang] += 1` on an association list kept in first-encounter
key order, exactly as a Python `Counter` (an insertion-ordered dict). -/
def counter_incr (l : String) : List (String × Nat) → List (String × Nat)
  | [] => [(l, 1)]
  | (k, c) :: rest => if k = l then (k, c + 1) :: rest else (k, c) :: counter_incr l rest

/-- The counting pass of lines 117–121 from an arbitrary starting
counter (generalized accumulator for the loop). -/
def lang_counts_from (acc : List (String × Nat)) (repos : List Repo) : List (String × Nat) :=
  repos.foldl (fun acc r => if has_language r then counter_incr (lang_of r) acc else acc) acc

/-- Lines 117–121: the language counter after the counting pass, keys in
first-encounter order. -/
def lang_counts (repos : List Repo) : List (String × Nat) :=
  lang_counts_from [] repos

/-- `sum(counter.values())`. -/
def sum_counts (l : List (String × Nat)) : Nat := (l.map Prod.snd).sum

/-- The comparison used by `Counter.most_common()`: sort by count
descending.  `most_common` is a stable sort with this relation. -/
def countGE (a b : String × Nat) : Prop := b.2 ≤ a.2

instance : DecidableRel countGE := fun a b => Nat.decLe b.2 a.2

instance : IsTotal (String × Nat) countGE := ⟨fun a b => Nat.le_total b.2 a.2⟩

instance : IsTrans (String × Nat) countGE := ⟨fun _ _ _ h h' => Nat.le_trans h' h⟩

/-- `Counter.most_common()`: `sorted(items, key=count, reverse=True)`, a
stable sort by descending count (insertion sort is stable). -/
def most_common (l : List (String × Nat)) : List (String × Nat) :=
  l.insertionSort countGE

/-- Lines 112–125, `compute_language_stats`: count languages, drop the
falsy ones, convert to percentages of the counted total, order by
descending frequency. -/
def compute_language_stats (repos : List Repo) : List (String × ℚ) :=
  let counter := lang_counts repos
  let total := sum_counts counter
  if total = 0 then []
  else (most_common counter).map (fun p => (p.1, (p.2 : ℚ) / (total : ℚ) * 100))

/-- `r.get("stargazers_count", 0)`. -/
def stars (r : Repo) : Nat := r.stargazers_count.getD 0

/-- Python truthiness of `r.get("fork")`. -/
def is_fork (r : Repo) : Bool := r.fork.getD false

/-- The comparison used by `original.sort(key=stars, reverse=True)`. -/
def starsGE (a b : Repo) : Prop := stars b ≤ stars a

instance : DecidableRel starsGE := fun a b => Nat.decLe (stars b) (stars a)

instance : IsTotal Repo starsGE := ⟨fun a b => Nat.le_total (stars b) (stars a)⟩

instance : IsTrans Repo starsGE := ⟨fun _ _ _ h h' => Nat.le_trans h' h⟩

/-- The non-fork repos in input order (line 130). -/
def non_forks (repos : List Repo) : List Repo := repos.filter (fun r => !is_fork r)

/-- The non-fork repos stably sorted by star count descending (line 131;
`list.sort(reverse=True)` keeps ties in original order). -/
def sorted_non_forks (repos : List Repo) : List Repo :=
  (non_forks repos).insertionSort starsGE

/-- Lines 128–132, `top_repos`: filter forks, stable-sort by stars
descending, take the first `n` (default 6). -/
def top_repos (repos : List Repo) (n : Nat := 6) : List Repo :=
  (sorted_non_forks repos).take n

/-- Lines 150–153: the commit count of a push event.
`count = len(commits) if commits else payload.get("size", 0)`, and a zero
count falls through to `payload.get("distinct_size", 1)`. -/
def push_count (pl : Payload) : Nat :=
  let count := if pl.commits ≠ [] then pl.commits.length else pl.size.getD 0
  if count = 0 then pl.distinct_size.getD 1 else count

/-- Lines 135–183, `format_event`: map one event to a line, or `none`. -/
def format_event (e : Event) : Option String :=
  let etype := pget e.type
  let repo_name := pget (e.repo.getD ⟨none⟩).name
  let payload := e.payload.getD emptyPayload
  let date_str := format_date (pget e.created_at)
  if etype = "PushEvent" then
    let count := push_count payload
    let unit := if count = 1 then "commit" else "commits"
    some ("Pushed " ++ toString count ++ " " ++ unit ++ " to `" ++ repo_name ++
      "` (" ++ date_str ++ ")")
  else if etype = "PullRequestEvent" then
    let action := pget payload.action
    let title := pget (payload.pull_request.getD ⟨none⟩).title
    some (py_capitalize action ++ " PR \"" ++ title ++ "\" in `" ++ repo_name ++
      "` (" ++ date_str ++ ")")
  else if etype = "IssuesEvent" then
    let action := pget payload.action
    let title := pget (payload.issue.getD ⟨none⟩).title
    some (py_capitalize action ++ " issue \"" ++ title ++ "\" in `" ++ repo_name ++
      "` (" ++ date_str ++ ")")
  else if etype = "WatchEvent" then
    some ("Starred `" ++ repo_name ++ "` (" ++ date_str ++ ")")
  else if etype = "CreateEvent" then
    let ref_type := pget payload.ref_type
    let ref := pget payload.ref
    if ref_type = "repository" then
      some ("Created repository `" ++ repo_name ++ "` (" ++ date_str ++ ")")
    else if ref ≠ "" then
      some ("Created " ++ ref_type ++ " `" ++ ref ++ "` in `" ++ repo_name ++
        "` (" ++ date_str ++ ")")
    else none
  else if etype = "ForkEvent" then
    let forkee := pget (payload.forkee.getD ⟨none⟩).full_name
    some ("Forked `" ++ repo_name ++ "` to `" ++ forkee ++ "` (" ++ date_str ++ ")")
  else if etype = "IssueCommentEvent" then
    let title := pget (payload.issue.getD ⟨none⟩).title
    some ("Commented on \"" ++ title ++ "\" in `" ++ repo_name ++ "` (" ++ date_str ++ ")")
  else none

/-- Loop body of `format_events`: append non-falsy lines, stop as soon as
`limit` lines have been collected (the bound is checked after each event,
matching the `break` placement). -/
def format_events_go (limit : Nat) : List Event → List String → List String
  | [], acc => acc
  | e :: es, acc =>
    let acc' := match format_event e with
      | some l => if l ≠ "" then acc ++ [l] else acc
      | none => acc
    if limit ≤ acc'.length then acc' else format_events_go limit es acc'

/-- Lines 186–195, `format_events`. -/
def format_events (events : List Event) (limit : Nat := 10) : List String :=
  format_events_go limit events []

/-- Lines 225–227 and 312–314: link target for the blog field, prefixing
`https://` unless the stored value starts with `"http"`. -/
def blog_url (blog : String) : String :=
  if py_startswith blog "http" then blog else "https://" ++ blog

/-- Line 205: `profile.get("name") or profile.get("login", "")`. -/
def header_name (p : Profile) : String :=
  if pget p.name ≠ "" then pget p.name else pget p.login

/-- Lines 220–227: the pipe-joined metadata entries of the header. -/
def header_meta_parts (p : Profile) : List String :=
  (if pget p.location ≠ "" then ["üìç " ++ pget p.location] else [])
  ++ (if pget p.company ≠ "" then ["üè¢ " ++ pget p.company] else [])
  ++ (if pget p.blog ≠ "" then
        ["üîó [" ++ pget p.blog ++ "](" ++ blog_url (pget p.blog) ++ ")"]
      else [])

/-- Lines 203–231, `_section_header`. -/
def section_header (p : Profile) : String :=
  let lines :=
    ["# Hi there! I'm " ++ header_name p ++ " üëã\n"]
    ++ (if pget p.avatar_url ≠ "" then
          ["<img src=\"" ++ pget p.avatar_url ++ "\" width=\"200\" align=\"right\" />\n"]
        else [])
    ++ (if pget p.bio ≠ "" then ["**" ++ pget p.bio ++ "**\n"] else [])
    ++ (if header_meta_parts p ≠ [] then
          [String.intercalate " | " (header_meta_parts p) ++ "\n"]
        else [])
  String.intercalate "\n" lines

/-- Lines 234–247, `_section_stats`: the fixed 4-column stats table. -/
def section_stats (p : Profile) (repos : List Repo) : String :=
  let followers := p.followers.getD 0
  let following := p.following.getD 0
  let public_repos := p.public_repos.getD 0
  let total_stars := (repos.map stars).sum
  String.intercalate "\n"
    ["## üìä GitHub Stats\n",
     "| Followers | Following | Public Repos | Total Stars |",
     "|-----------|-----------|--------------|-------------|",
     "| " ++ toString followers ++ " | " ++ toString following ++ " | " ++
       toString public_repos ++ " | " ++ toString total_stars ++ " |\n"]

/-- Lines 264–265: truncate a long description to 77 code points plus an
ellipsis when it exceeds 80. -/
def trunc_desc (desc : String) : String :=
  if 80 < desc.length then py_take desc 77 ++ "..." else desc

/-- Lines 262–267: the description table cell — truncation, then pipe
escaping. -/
def desc_cell (desc : String) : String := escape_pipes (trunc_desc desc)

/-- Lines 259–271: one row of the Top Repositories table. -/
def repo_row (r : Repo) : String :=
  "| [" ++ pget r.name ++ "](" ++ pget r.html_url ++ ") | " ++
    desc_cell (pget r.description) ++ " | " ++
    (if pget r.language ≠ "" then pget r.language else "‚Äî") ++ " | " ++
    toString (stars r) ++ " | " ++ toString (r.forks_count.getD 0) ++ " |"

/-- Lines 250–273, `_section_top_repos`. -/
def section_top_repos (repos : List Repo) : String :=
  let top := top_repos repos
  if top = [] then ""
  else
    String.intercalate "\n"
      (["## üèÜ Top Repositories\n",
        "| Repository | Description | Language | ‚≠ê | üç¥ |",
        "|------------|-------------|----------|---:|---:|"]
       ++ top.map repo_row ++ [""])

/-- Lines 283–286: one bullet of the Language Breakdown, with the
proportional bar (`round(pct / 5)` copies of the block glyph) and the
percentage to one decimal place. -/
def lang_line (lang : String) (pct : ℚ) : String :=
  let bar_len := (pyRound (pct / 5)).toNat
  "- **" ++ lang ++ "** " ++ py_repeat "‚ñà" bar_len ++ " " ++ fmt1 pct ++ "%"

/-- Lines 276–288, `_section_languages`. -/
def section_languages (repos : List Repo) : String :=
  let stats_list := compute_language_stats repos
  if stats_list = [] then ""
  else
    String.intercalate "\n"
      (["## üíª Language Breakdown\n"]
       ++ stats_list.map (fun p => lang_line p.1 p.2) ++ [""])

/-- Lines 291–301, `_section_activity`. -/
def section_activity (events : List Event) : String :=
  let formatted := format_events events
  if formatted = [] then ""
  else
    String.intercalate "\n"
      (["## ‚ö° Recent Activity\n"] ++ formatted.map (fun s => "- " ++ s) ++ [""])

/-- Lines 311–319: the contact links; the github.com profile link is
appended unconditionally. -/
def connect_links (p : Profile) : List String :=
  (if pget p.blog ≠ "" then
     ["- üåê [" ++ pget p.blog ++ "](" ++ blog_url (pget p.blog) ++ ")"]
   else [])
  ++ (if pget p.twitter_username ≠ "" then
        ["- üê¶ [@" ++ pget p.twitter_username ++ "](https://twitter.com/" ++
          pget p.twitter_username ++ ")"]
      else [])
  ++ (if pget p.email ≠ "" then
        ["- üìß [" ++ pget p.email ++ "](mailto:" ++ pget p.email ++ ")"]
      else [])
  ++ ["- üêô [" ++ pget p.login ++ "](https://github.com/" ++ pget p.login ++ ")"]

/-- Lines 304–324, `_section_connect`. -/
def section_connect (p : Profile) : String :=
  let links := connect_links p
  if links = [] then ""
  else "## ü§ù Connect With Me\n\n" ++ String.intercalate "\n" links ++ "\n"

/-- Lines 329–336: the six sections, in fixed order. -/
def readme_sections (p : Profile) (repos : List Repo) (events : List Event) : List String :=
  [section_header p, section_stats p repos, section_top_repos repos,
   section_languages repos, section_activity events, section_connect p]

/-- Line 338: `[s for s in sections if s.strip()]`. -/
def readme_parts (p : Profile) (repos : List Repo) (events : List Event) : List String :=
  (readme_sections p repos events).filter has_non_ws

/-- Lines 340–347: the fixed footer appended to every document. -/
def readme_footer : String :=
  "\n---\n\n<p align=\"center\"><i>Generated with " ++
    "<a href=\"https://github.com\">GitHub Profile README Generator</a></i></p>\n"

/-- Lines 327–348, `generate_readme`: join the non-empty sections with
the horizontal-rule separator and append the footer. -/
def generate_readme (p : Profile) (repos : List Repo) (events : List Event) : String :=
  String.intercalate "\n---\n\n" (readme_parts p repos events) ++ readme_footer

/-! ## Definitions following the wording of the specification

These two definitions are deliberately written from the spec's / claim's
words rather than from the source, to be compared with the embedded code. -/

/-- The commit-count rule as the claim words it: "the length of the
payload's commit list when that list is non-empty, else the payload's
size field, else the payload's distinct_size field, defaulting to 1 when
none are available" — where "else" moves on only when the previous field
is absent. -/
def spec_push_count (pl : Payload) : Nat :=
  if pl.commits ≠ [] then pl.commits.length
  else
    match pl.size with
    | some s => s
    | none =>
      match pl.distinct_size with
      | some d => d
      | none => 1

/-- "The stored value lacks a scheme", read as a URI scheme in the
RFC 3986 sense: a leading letter, followed by letters, digits, `+`, `-`
or `.`, terminated by a colon. -/
def spec_has_scheme (s : String) : Bool :=
  let pre := s.data.takeWhile (fun c => c.isAlphanum || c = '+' || c = '-' || c = '.')
  match s.data with
  | [] => false
  | c :: _ => c.isAlpha && (s.data.drop pre.length).take 1 = [':']

/-! ## Concrete fixtures used by witnesses and counterexamples -/

/-- The profile of the spec's Stats example. -/
def alice : Profile :=
  { name := none, login := some "alice", avatar_url := none, bio := none,
    location := none, company := none, blog := none, followers := some 10,
    following := some 2, public_repos := some 3, twitter_username := none,
    email := none }

/-- The repository of the spec's Stats example. -/
def xrepo : Repo :=
  { name := some "x", html_url := none, description := none, language := none,
    stargazers_count := some 5, forks_count := none, fork := some false }

/-- Shorthand for building repo fixtures. -/
def mk_repo (nm : String) (lang : Option String) (st : Nat) (fk : Bool) : Repo :=
  { name := some nm, html_url := none, description := none, language := lang,
    stargazers_count := some st, forks_count := none, fork := some fk }

/-- Repos with languages Python, Rust, Python and one missing language. -/
def demo_lang_repos : List Repo :=
  [mk_repo "p1" (some "Python") 1 false, mk_repo "r1" (some "Rust") 2 false,
   mk_repo "p2" (some "Python") 3 false, mk_repo "n1" none 4 false]

/-- A single-language repo list, for evaluating the language section. -/
def solo_lang_repos : List Repo := [mk_repo "p1" (some "Python") 1 false]

/-- Repos with a star tie (`a` before `c`) and one fork. -/
def demo_star_repos : List Repo :=
  [mk_repo "a" none 3 false, mk_repo "b" none 5 false,
   mk_repo "c" none 3 false, mk_repo "d" none 9 true]

/-- An 81-character description. -/
def d81 : String := String.mk (List.replicate 81 'a')

/-- A push payload whose `size` field is present but zero while
`distinct_size` is present and non-zero. -/
def push_payload_ce : Payload :=
  { commits := [], size := some 0, distinct_size := some 5, action := none,
    pull_request := none, issue := none, ref_type := none, ref := none,
    forkee := none }

/-- A push event carrying `push_payload_ce`. -/
def push_event_ce : Event :=
  { type := some "PushEvent", repo := some ⟨some "octo/demo"⟩,
    payload := some push_payload_ce, created_at := none }

/-- A profile whose blog field has a non-http scheme. -/
def pftp : Profile :=
  { name := none, login := some "carol", avatar_url := none, bio := none,
    location := none, company := none, blog := some "ftp://example.com",
    followers := none, following := none, public_repos := none,
    twitter_username := none, email := none }

/-! ## Helper lemmas -/

theorem pyFloor_eq (q : ℚ) : pyFloor q = ⌊q⌋ := Rat.floor_def.symm

theorem pyRound_near (q : ℚ) : |(pyRound q : ℚ) - q| ≤ 1/2 := by
  have h1 : ((⌊q⌋ : ℤ) : ℚ) ≤ q := Int.floor_le q
  have h2 : q < (⌊q⌋ : ℚ) + 1 := Int.lt_floor_add_one q
  unfold pyRound
  rw [pyFloor_eq]
  split_ifs with ha hb hc <;> rw [abs_le] <;> push_cast <;> constructor <;> linarith

theorem pyRound_nonneg (q : ℚ) (h : 0 ≤ q) : 0 ≤ pyRound q := by
  have h1 : (0 : ℤ) ≤ ⌊q⌋ := Int.floor_nonneg.mpr h
  unfold pyRound
  rw [pyFloor_eq]
  split_ifs <;> omega

/-! ## C7: determinism of document generation -/

/-- C7: `generate_readme` is deterministic — it is a pure function of the
profile, repository list and event list, so two invocations on the same
inputs yield byte-identical documents. -/
theorem generate_readme_deterministic (p : Profile) (repos : List Repo)
    (events : List Event) :
    generate_readme p repos events = generate_readme p repos events := rfl

/-! ## C6: the Stats section -/

/-- C6: the Stats section is the fixed 4-column table of followers,
following, public-repo count and the star sum over all fetched repos; the
star sum ignores the fork flag (forks included); and on the spec's
example profile/repo the data row is `| 10 | 2 | 3 | 5 |`. -/
theorem stats_section_spec :
    (∀ (p : Profile) (repos : List Repo),
      section_stats p repos =
        "## \uF8FFüìä GitHub Stats\n\n| Followers | Following | Public Repos | Total Stars |\n|-----------|-----------|--------------|-------------|\n| "
          ++ toString (p.followers.getD 0) ++ " | " ++ toString (p.following.getD 0)
          ++ " | " ++ toString (p.public_repos.getD 0) ++ " | "
          ++ toString ((repos.map stars).sum) ++ " |\n")
    ∧ (∀ (p : Profile) (repos : List Repo),
        section_stats p repos =
          section_stats p (repos.map (fun r => { r with fork := some true })))
    ∧ section_stats alice [xrepo] =
        "## \uF8FFüìä GitHub Stats\n\n| Followers | Following | Public Repos | Total Stars |\n|-----------|-----------|--------------|-------------|\n| 10 | 2 | 3 | 5 |\n" := by
  refine ⟨fun p repos => ?_, fun p repos => ?_, by decide⟩
  · simp only [section_stats, String.intercalate, String.intercalate.go]
    simp only [← String.append_assoc]
    rfl
  · simp only [section_stats, List.map_map]
    rfl

/-! ## C5: description truncation in the Top Repositories table -/

/-- C5: in the Top Repositories table a description longer than 80
characters is replaced by its first 77 characters plus a 3-character
ellipsis (so an 81-character one becomes 77 characters plus `"..."`, of
total length 80), one of at most 80 characters is left untouched, and
pipes are escaped in the possibly-truncated text; `repo_row` renders the
cell through this transformation. -/
theorem desc_truncation_spec (d : String) :
    (80 < d.length →
      desc_cell d = escape_pipes (py_take d 77 ++ "...")
      ∧ (py_take d 77 ++ "...").length = 80)
    ∧ (d.length ≤ 80 → desc_cell d = escape_pipes d ∧ trunc_desc d = d)
    ∧ (d.length = 81 →
        trunc_desc d = py_take d 77 ++ "..." ∧ (trunc_desc d).length = 80)
    ∧ ∀ r : Repo, ∃ pre post : String,
        repo_row r = pre ++ desc_cell (pget r.description) ++ post := by
  have hlen : 80 < d.length → (py_take d 77 ++ "...").length = 80 := by
    intro h
    have : (py_take d 77).length = 77 := by
      simp only [py_take, String.length_mk, List.length_take]
      have : d.data.length = d.length := rfl
      omega
    simp [String.length_append, this]
    decide
  refine ⟨fun h => ⟨?_, hlen h⟩, fun h => ⟨?_, ?_⟩, fun h => ⟨?_, ?_⟩, fun r => ?_⟩
  · simp [desc_cell, trunc_desc, h]
  · simp [desc_cell, trunc_desc, Nat.not_lt.mpr h]
  · simp [trunc_desc, Nat.not_lt.mpr h]
  · simp [trunc_desc, h]
  · rw [(by simp [trunc_desc, h] : trunc_desc d = py_take d 77 ++ "...")]
    exact hlen (by omega)
  · refine ⟨"| [" ++ pget r.name ++ "](" ++ pget r.html_url ++ ") | ",
      " | " ++ (if pget r.language ≠ "" then pget r.language else "‚Äî") ++ " | " ++
        toString (stars r) ++ " | " ++ toString (r.forks_count.getD 0) ++ " |", ?_⟩
    simp [repo_row, String.append_assoc]

/-- Witness for C5 at a concrete 81-character description. -/
theorem desc_truncation_spec_witness :
    trunc_desc d81 = py_take d81 77 ++ "..." ∧ (trunc_desc d81).length = 80 :=
  (desc_truncation_spec d81).2.2.1 (by decide)

/-! ## C10: the Connect section is never dropped -/

theorem connect_links_ne_nil (p : Profile) : connect_links p ≠ [] := by
  simp [connect_links]

theorem section_connect_eq (p : Profile) :
    section_connect p =
      "## \uF8FFü§ù Connect With Me\n\n" ++ String.intercalate "\n" (connect_links p) ++ "\n" := by
  simp only [section_connect]
  rw [if_neg (connect_links_ne_nil p)]

/-- C10: the Connect section always contains the github.com profile link,
is never the empty string, survives the `s.strip()` filter, and is the
last retained part of every assembled document — its empty-result branch
is unreachable. -/
theorem connect_always_present (p : Profile) (repos : List Repo) (events : List Event) :
    ("- \uF8FFüêô [" ++ pget p.login ++ "](https://github.com/" ++ pget p.login ++ ")")
      ∈ connect_links p
    ∧ section_connect p ≠ ""
    ∧ has_non_ws (section_connect p) = true
    ∧ (readme_parts p repos events).getLast? = some (section_connect p) := by
  have hmem : ("- \uF8FFüêô [" ++ pget p.login ++ "](https://github.com/" ++ pget p.login ++ ")")
      ∈ connect_links p := by
    unfold connect_links
    exact List.mem_append_right _ (List.mem_singleton.mpr (by rfl))
  have hws : has_non_ws (section_connect p) = true := by
    rw [section_connect_eq, has_non_ws]
    rw [String.data_append, String.data_append]
    simp only [List.any_append]
    rw [Bool.or_eq_true, Bool.or_eq_true]
    left; left
    decide
  refine ⟨hmem, ?_, hws, ?_⟩
  · rw [section_connect_eq]
    intro hcontra
    have : ("## \uF8FFü§ù Connect With Me\n\n" ++ String.intercalate "\n" (connect_links p) ++ "\n").data
        = ("" : String).data := by rw [hcontra]
    rw [String.data_append, String.data_append] at this
    simp at this
  · have hsplit : readme_sections p repos events =
        [section_header p, section_stats p repos, section_top_repos repos,
         section_languages repos, section_activity events] ++ [section_connect p] := rfl
    rw [readme_parts, hsplit, List.filter_append]
    have : List.filter has_non_ws [section_connect p] = [section_connect p] := by
      simp [List.filter, hws]
    rw [this]
    exact List.getLast?_concat _

/-! ## C9: blog link URL construction -/

/-- Counterexample to C9 as stated: `"ftp://example.com"` has a scheme,
so per the claim the stored value should be used unchanged, but the code
tests `startswith("http")` and prefixes `https://` anyway, in the header
metadata (and identically in the Connect section). -/
theorem blog_scheme_counterexample :
    spec_has_scheme "ftp://example.com" = true
    ∧ blog_url "ftp://example.com" = "https://ftp://example.com"
    ∧ ("üîó [ftp://example.com](ftp://example.com)" ∈ header_meta_parts pftp → False)
    ∧ "üîó [ftp://example.com](https://ftp://example.com)" ∈ header_meta_parts pftp
    ∧ ("- üåê [ftp://example.com](ftp://example.com)" ∈ connect_links pftp → False)
    ∧ "- üåê [ftp://example.com](https://ftp://example.com)" ∈ connect_links pftp := by
  decide

/-- C9 as amended: the blog link's URL (in both the header metadata line
and the Connect section) is the stored value prefixed with `https://`
exactly when the stored value does not start with `"http"`, and the
stored value unchanged otherwise. -/
theorem blog_url_spec (p : Profile) (h : pget p.blog ≠ "") :
    ("üîó [" ++ pget p.blog ++ "](" ++ blog_url (pget p.blog) ++ ")")
      ∈ header_meta_parts p
    ∧ ("- üåê [" ++ pget p.blog ++ "](" ++ blog_url (pget p.blog) ++ ")")
      ∈ connect_links p
    ∧ (py_startswith (pget p.blog) "http" = false →
        blog_url (pget p.blog) = "https://" ++ pget p.blog)
    ∧ (py_startswith (pget p.blog) "http" = true →
        blog_url (pget p.blog) = pget p.blog) := by
  refine ⟨?_, ?_, fun hs => ?_, fun hs => ?_⟩
  · unfold header_meta_parts
    refine List.mem_append_right _ ?_
    rw [if_pos h]
    exact List.mem_singleton.mpr (by rfl)
  · unfold connect_links
    refine List.mem_append_left _ (List.mem_append_left _ (List.mem_append_left _ ?_))
    rw [if_pos h]
    exact List.mem_singleton.mpr (by rfl)
  · simp [blog_url, hs]
  · simp [blog_url, hs]

/-- Witness for the amended C9 at a concrete profile. -/
theorem blog_url_spec_witness :
    ("üîó [" ++ pget pftp.blog ++ "](" ++ blog_url (pget pftp.blog) ++ ")")
      ∈ header_meta_parts pftp
    ∧ ("- üåê [" ++ pget pftp.blog ++ "](" ++ blog_url (pget pftp.blog) ++ ")")
      ∈ connect_links pftp
    ∧ (py_startswith (pget pftp.blog) "http" = false →
        blog_url (pget pftp.blog) = "https://" ++ pget pftp.blog)
    ∧ (py_startswith (pget pftp.blog) "http" = true →
        blog_url (pget pftp.blog) = pget pftp.blog) :=
  blog_url_spec pftp (by decide)

/-! ## C4: push event commit count -/

/-- Counterexample to C4 as stated: with an empty commit list, a `size`
field that is present with value `0`, and `distinct_size = 5`, the
claim's chain picks the available `size` field (count 0), but the code's
`count == 0` test falls through to `distinct_size` and renders
"Pushed 5 commits". -/
theorem push_count_counterexample :
    spec_push_count push_payload_ce = 0
    ∧ push_count push_payload_ce = 5
    ∧ push_count push_payload_ce ≠ spec_push_count push_payload_ce
    ∧ format_event push_event_ce = some "Pushed 5 commits to `octo/demo` ()" := by
  decide

/-- C4 as amended: for every PushEvent the rendered count is the length
of the commit list when non-empty, else the `size` field when present
and non-zero, else the `distinct_size` field when present (even if it is
zero), else 1; the noun is "commit" exactly when the count is 1. -/
theorem push_event_line (e : Event) (h : pget e.type = "PushEvent") :
    format_event e =
      some ("Pushed " ++ toString (push_count (e.payload.getD emptyPayload)) ++ " " ++
        (if push_count (e.payload.getD emptyPayload) = 1 then "commit" else "commits") ++
        " to `" ++ pget (e.repo.getD ⟨none⟩).name ++ "` (" ++
        format_date (pget e.created_at) ++ ")")
    ∧ ∀ pl : Payload,
        push_count pl =
          if pl.commits ≠ [] then pl.commits.length
          else if pl.size.getD 0 ≠ 0 then pl.size.getD 0
          else pl.distinct_size.getD 1 := by
  constructor
  · simp only [format_event]
    rw [if_pos h]
  · intro pl
    by_cases hc : pl.commits = []
    · simp only [push_count, hc]
      split_ifs <;> simp_all
    · have hlen : pl.commits.length ≠ 0 := by
        simpa [List.length_eq_zero] using hc
      simp [push_count, hc, hlen]

/-- Witness for the amended C4 at the concrete push event. -/
theorem push_event_line_witness :
    format_event push_event_ce =
      some ("Pushed " ++ toString (push_count (push_event_ce.payload.getD emptyPayload)) ++ " " ++
        (if push_count (push_event_ce.payload.getD emptyPayload) = 1 then "commit" else "commits") ++
        " to `" ++ pget (push_event_ce.repo.getD ⟨none⟩).name ++ "` (" ++
        format_date (pget push_event_ce.created_at) ++ ")")
    ∧ ∀ pl : Payload,
        push_count pl =
          if pl.commits ≠ [] then pl.commits.length
          else if pl.size.getD 0 ≠ 0 then pl.size.getD 0
          else pl.distinct_size.getD 1 :=
  push_event_line push_event_ce (by decide)

/-! ## C3: which events produce no output -/

/-- C3: `format_event` yields no line exactly for events whose type is
outside the seven recognized types, and for a CreateEvent whose ref_type
is not "repository" and whose ref value is absent or empty (absence and
emptiness coincide through `payload.get("ref", "")`); every other
recognized event yields a line. -/
theorem format_event_none_iff (e : Event) :
    format_event e = none ↔
      (pget e.type ∉ (["PushEvent", "PullRequestEvent", "IssuesEvent", "WatchEvent",
          "CreateEvent", "ForkEvent", "IssueCommentEvent"] : List String)
       ∨ (pget e.type = "CreateEvent"
          ∧ pget (e.payload.getD emptyPayload).ref_type ≠ "repository"
          ∧ pget (e.payload.getD emptyPayload).ref = "")) := by
  simp only [format_event, List.mem_cons, List.not_mem_nil]
  split_ifs with h1 h2 h3 h4 h5 h6 h7 h8 <;> simp_all

/-! ## Counting-pass lemmas for C1 -/

theorem lang_counts_from_nil (acc : List (String × Nat)) :
    lang_counts_from acc [] = acc := rfl

theorem lang_counts_from_cons (acc : List (String × Nat)) (r : Repo) (rs : List Repo) :
    lang_counts_from acc (r :: rs) =
      lang_counts_from (if has_language r then counter_incr (lang_of r) acc else acc) rs := rfl

theorem sum_counts_nil : sum_counts [] = 0 := rfl

theorem sum_counts_cons (p : String × Nat) (l : List (String × Nat)) :
    sum_counts (p :: l) = p.2 + sum_counts l := by
  simp [sum_counts]

theorem sum_counts_incr (s : String) (acc : List (String × Nat)) :
    sum_counts (counter_incr s acc) = sum_counts acc + 1 := by
  induction acc with
  | nil => simp [counter_incr, sum_counts]
  | cons p rest ih =>
    obtain ⟨k, c⟩ := p
    by_cases hk : k = s
    · simp [counter_incr, hk, sum_counts_cons]
      omega
    · simp [counter_incr, hk, sum_counts_cons, ih]
      omega

theorem lang_counts_from_sum (repos : List Repo) :
    ∀ acc : List (String × Nat),
      sum_counts (lang_counts_from acc repos) =
        sum_counts acc + repos.countP (fun r => has_language r) := by
  induction repos with
  | nil => intro acc; simp [lang_counts_from_nil]
  | cons r rs ih =>
    intro acc
    rw [lang_counts_from_cons]
    by_cases hr : has_language r
    · rw [if_pos hr, ih, sum_counts_incr, List.countP_cons, if_pos hr]
      omega
    · rw [if_neg hr, ih, List.countP_cons, if_neg hr]
      omega

theorem sum_lang_counts (repos : List Repo) :
    sum_counts (lang_counts repos) = repos.countP (fun r => has_language r) := by
  rw [lang_counts, lang_counts_from_sum]
  simp [sum_counts]

theorem counter_incr_pos (s : String) (acc : List (String × Nat))
    (h : ∀ p ∈ acc, 1 ≤ p.2) : ∀ p ∈ counter_incr s acc, 1 ≤ p.2 := by
  induction acc with
  | nil =>
    intro p hp
    simp only [counter_incr, List.mem_singleton] at hp
    subst hp
    simp
  | cons q rest ih =>
    obtain ⟨k, c⟩ := q
    intro p hp
    by_cases hk : k = s
    · simp only [counter_incr, if_pos hk, List.mem_cons] at hp
      rcases hp with h1 | h2
      · subst h1; simp
      · exact h p (List.mem_cons_of_mem _ h2)
    · simp only [counter_incr, if_neg hk, List.mem_cons] at hp
      rcases hp with h1 | h2
      · subst h1; exact h _ (List.mem_cons_self _ _)
      · exact ih (fun q hq => h q (List.mem_cons_of_mem _ hq)) p h2

theorem lang_counts_from_pos (repos : List Repo) :
    ∀ acc : List (String × Nat), (∀ p ∈ acc, 1 ≤ p.2) →
      ∀ p ∈ lang_counts_from acc repos, 1 ≤ p.2 := by
  induction repos with
  | nil => intro acc h; simpa [lang_counts_from_nil] using h
  | cons r rs ih =>
    intro acc h
    rw [lang_counts_from_cons]
    by_cases hr : has_language r
    · rw [if_pos hr]
      exact ih _ (counter_incr_pos _ _ h)
    · rw [if_neg hr]
      exact ih _ h

theorem lang_counts_pos (repos : List Repo) : ∀ p ∈ lang_counts repos, 1 ≤ p.2 :=
  lang_counts_from_pos repos [] (by simp)

theorem lang_counts_eq_nil_of_sum_zero (repos : List Repo)
    (h : sum_counts (lang_counts repos) = 0) : lang_counts repos = [] := by
  cases hl : lang_counts repos with
  | nil => rfl
  | cons p rest =>
    have h1 : 1 ≤ p.2 := lang_counts_pos repos p (hl ▸ List.mem_cons_self _ _)
    rw [hl, sum_counts_cons] at h
    omega

theorem lang_counts_from_filter (repos : List Repo) :
    ∀ acc : List (String × Nat),
      lang_counts_from acc repos =
        lang_counts_from acc (repos.filter (fun r => r.language ≠ none)) := by
  induction repos with
  | nil => intro acc; rfl
  | cons r rs ih =>
    intro acc
    by_cases hr : r.language = none
    · have hfl : has_language r = false := by
        simp [has_language, pget, hr]
      rw [lang_counts_from_cons, if_neg (by simp [hfl])]
      have : (r :: rs).filter (fun r => r.language ≠ none) =
          rs.filter (fun r => r.language ≠ none) := by
        simp [List.filter, hr]
      rw [this, ih]
    · have : (r :: rs).filter (fun r => r.language ≠ none) =
          r :: rs.filter (fun r => r.language ≠ none) := by
        simp [List.filter, hr]
      rw [this, lang_counts_from_cons, lang_counts_from_cons, ih]

theorem map_pct_sum (l : List (String × Nat)) (t : ℚ) :
    (l.map (fun p => (p.2 : ℚ) / t * 100)).sum = (sum_counts l : ℚ) / t * 100 := by
  induction l with
  | nil => simp [sum_counts]
  | cons p rest ih =>
    rw [List.map_cons, List.sum_cons, ih, sum_counts_cons]
    push_cast
    ring

/-! ## C1: language statistics -/

/-- C1: `compute_language_stats` ignores repositories with null/missing
languages, returns pairs in descending count order with ties kept in
first-encountered (counting-pass) order, its percentages sum to exactly
100 when at least one repository has a language, and it returns the
empty list when none does. -/
theorem compute_language_stats_spec (repos : List Repo) :
    compute_language_stats repos =
      compute_language_stats (repos.filter (fun r => r.language ≠ none))
    ∧ (compute_language_stats repos).Pairwise (fun a b => b.2 ≤ a.2)
    ∧ (∀ a b : String × Nat,
        [a, b].Sublist (lang_counts repos) → b.2 ≤ a.2 →
        [(a.1, (a.2 : ℚ) / (sum_counts (lang_counts repos) : ℚ) * 100),
         (b.1, (b.2 : ℚ) / (sum_counts (lang_counts repos) : ℚ) * 100)].Sublist
          (compute_language_stats repos))
    ∧ ((∃ r ∈ repos, has_language r = true) →
        ((compute_language_stats repos).map Prod.snd).sum = 100
        ∧ compute_language_stats repos ≠ [])
    ∧ ((∀ r ∈ repos, has_language r = false) → compute_language_stats repos = []) := by
  refine ⟨?_, ?_, ?_, ?_, ?_⟩
  · have hlc : lang_counts repos = lang_counts (repos.filter (fun r => r.language ≠ none)) := by
      rw [lang_counts, lang_counts, lang_counts_from_filter]
    simp only [compute_language_stats]
    rw [hlc]
  · by_cases ht : sum_counts (lang_counts repos) = 0
    · simp [compute_language_stats, ht]
    · have htpos : (0 : ℚ) < (sum_counts (lang_counts repos) : ℚ) := by
        have := Nat.pos_of_ne_zero ht
        exact_mod_cast this
      simp only [compute_language_stats, if_neg ht]
      refine List.Pairwise.map _ ?_ (List.sorted_insertionSort countGE (lang_counts repos))
      intro a b hab
      have hcast : ((b.2 : ℚ)) ≤ (a.2 : ℚ) := Nat.cast_le.mpr hab
      exact mul_le_mul_of_nonneg_right ((div_le_div_iff_of_pos_right htpos).mpr hcast) (by norm_num)
  · intro a b hsub hab
    by_cases ht : sum_counts (lang_counts repos) = 0
    · rw [lang_counts_eq_nil_of_sum_zero repos ht] at hsub
      have := List.sublist_nil.mp hsub
      simp at this
    · have h1 : [a, b].Sublist (most_common (lang_counts repos)) :=
        List.pair_sublist_insertionSort (show countGE a b from hab) hsub
      have h2 := h1.map
        (fun p => (p.1, (p.2 : ℚ) / (sum_counts (lang_counts repos) : ℚ) * 100))
      simp only [List.map_cons, List.map_nil] at h2
      simp only [compute_language_stats, if_neg ht]
      exact h2
  · intro hex
    have htot : 0 < repos.countP (fun r => has_language r) :=
      List.countP_pos_iff.mpr ⟨hex.choose, hex.choose_spec.1, hex.choose_spec.2⟩
    have ht : sum_counts (lang_counts repos) ≠ 0 := by
      rw [sum_lang_counts]; omega
    have hperm : (most_common (lang_counts repos)).Perm (lang_counts repos) :=
      List.perm_insertionSort countGE _
    constructor
    · simp only [compute_language_stats, if_neg ht]
      rw [List.map_map]
      have hcomp : (Prod.snd ∘ fun p : String × Nat =>
          (p.1, (p.2 : ℚ) / (sum_counts (lang_counts repos) : ℚ) * 100)) =
          fun p : String × Nat =>
            (p.2 : ℚ) / (sum_counts (lang_counts repos) : ℚ) * 100 := rfl
      rw [hcomp, (hperm.map _).sum_eq, map_pct_sum,
        div_self (by exact_mod_cast ht : ((sum_counts (lang_counts repos) : ℚ)) ≠ 0)]
      norm_num
    · simp only [compute_language_stats, if_neg ht]
      intro hnil
      rw [List.map_eq_nil_iff] at hnil
      rw [hnil] at hperm
      have := List.nil_perm.mp hperm
      exact ht (by rw [this]; rfl)
  · intro hall
    have hcp : repos.countP (fun r => has_language r) = 0 :=
      List.countP_eq_zero.mpr (fun r hr => by simp [hall r hr])
    have ht : sum_counts (lang_counts repos) = 0 := by
      rw [sum_lang_counts, hcp]
    simp [compute_language_stats, ht]

/-- Witness for C1 on a concrete mixed-language repo list. -/
theorem compute_language_stats_spec_witness :
    ((compute_language_stats demo_lang_repos).map Prod.snd).sum = 100
    ∧ compute_language_stats demo_lang_repos ≠ [] :=
  (compute_language_stats_spec demo_lang_repos).2.2.2.1 (by decide)

/-! ## C2: top repositories -/

/-- C2: `top_repos` contains no repository whose fork flag is set, has at
most `n` entries, is sorted non-increasingly by star count, and the
stable sort keeps input order among repositories with equal (or already
correctly ordered) star counts. -/
theorem top_repos_spec (repos : List Repo) (n : Nat) :
    (∀ r ∈ top_repos repos n, is_fork r = false)
    ∧ (top_repos repos n).length ≤ n
    ∧ (top_repos repos n).Pairwise (fun a b => stars b ≤ stars a)
    ∧ (∀ a b : Repo, [a, b].Sublist (non_forks repos) → stars b ≤ stars a →
        [a, b].Sublist (sorted_non_forks repos))
    ∧ top_repos repos n = (sorted_non_forks repos).take n := by
  refine ⟨?_, ?_, ?_, ?_, rfl⟩
  · intro r hr
    have h1 : r ∈ sorted_non_forks repos :=
      (List.take_sublist n (sorted_non_forks repos)).subset hr
    have h2 : r ∈ non_forks repos := by
      rw [sorted_non_forks] at h1
      exact (List.mem_insertionSort starsGE).mp h1
    have h3 := List.of_mem_filter h2
    simpa using h3
  · rw [top_repos, List.length_take]
    exact min_le_left _ _
  · have hs : (sorted_non_forks repos).Pairwise starsGE :=
      List.sorted_insertionSort starsGE (non_forks repos)
    exact List.Pairwise.sublist (List.take_sublist n _) hs
  · intro a b hsub hab
    exact List.pair_sublist_insertionSort (show starsGE a b from hab) hsub

/-- Witness for C2: the star tie between repos `a` and `c` keeps input
order through the sort. -/
theorem top_repos_spec_witness :
    [mk_repo "a" none 3 false, mk_repo "c" none 3 false].Sublist
      (sorted_non_forks demo_star_repos) :=
  (top_repos_spec demo_star_repos 6).2.2.2.1 _ _ (by decide) (by decide)

/-! ## C8: language bars and percentage formatting -/

theorem stats_mem_nonneg (repos : List Repo) (lang : String) (pct : ℚ)
    (h : (lang, pct) ∈ compute_language_stats repos) : 0 ≤ pct := by
  by_cases ht : sum_counts (lang_counts repos) = 0
  · simp [compute_language_stats, ht] at h
  · simp only [compute_language_stats, if_neg ht, List.mem_map, Prod.mk.injEq] at h
    obtain ⟨p, hp, hl, hpct⟩ := h
    rw [← hpct]
    positivity

theorem toString_digit_len (b : ℤ) (h0 : 0 ≤ b) (h10 : b < 10) :
    (toString b).length = 1 := by
  interval_cases b <;> rfl

theorem fmt1_decimal (q : ℚ) :
    ∃ a b : ℤ, 0 ≤ b ∧ b < 10 ∧ (toString b).length = 1 ∧
      fmt1 q = toString a ++ "." ++ toString b := by
  have h0 : (0 : ℤ) ≤ pyRound (q * 10) % 10 := Int.emod_nonneg _ (by norm_num)
  have h10 : pyRound (q * 10) % 10 < 10 := Int.emod_lt_of_pos _ (by norm_num)
  exact ⟨pyRound (q * 10) / 10, pyRound (q * 10) % 10, h0, h10,
    toString_digit_len _ h0 h10, rfl⟩

/-- C8: each Language Breakdown bullet renders a bar of
`round(pct / 5)` block glyphs — a nearest integer to `pct / 5` — and the
percentage with exactly one decimal digit after the point. -/
theorem language_bar_spec (repos : List Repo) (lang : String) (pct : ℚ)
    (h : (lang, pct) ∈ compute_language_stats repos) :
    ∃ n : ℕ,
      lang_line lang pct =
        "- **" ++ lang ++ "** " ++ py_repeat "‚ñà" n ++ " " ++ fmt1 pct ++ "%"
      ∧ |(n : ℚ) - pct / 5| ≤ 1/2
      ∧ ∃ a b : ℤ, 0 ≤ b ∧ b < 10 ∧ (toString b).length = 1 ∧
          fmt1 pct = toString a ++ "." ++ toString b := by
  have hpct : 0 ≤ pct := stats_mem_nonneg repos lang pct h
  refine ⟨(pyRound (pct / 5)).toNat, rfl, ?_, fmt1_decimal pct⟩
  have h5 : 0 ≤ pct / 5 := by positivity
  have hnn : 0 ≤ pyRound (pct / 5) := pyRound_nonneg _ h5
  have h2 : (((pyRound (pct / 5)).toNat : ℤ)) = pyRound (pct / 5) :=
    Int.toNat_of_nonneg hnn
  rw [show (((pyRound (pct / 5)).toNat : ℕ) : ℚ) = ((pyRound (pct / 5) : ℤ) : ℚ) by
    exact_mod_cast h2]
  exact pyRound_near _

/-- Witness for C8 on a single-language repo list (Python at 100%). -/
theorem language_bar_spec_witness :
    ∃ n : ℕ,
      lang_line "Python" 100 =
        "- **" ++ "Python" ++ "** " ++ py_repeat "‚ñà" n ++ " " ++ fmt1 100 ++ "%"
      ∧ |(n : ℚ) - 100 / 5| ≤ 1/2
      ∧ ∃ a b : ℤ, 0 ≤ b ∧ b < 10 ∧ (toString b).length = 1 ∧
          fmt1 100 = toString a ++ "." ++ toString b :=
  language_bar_spec solo_lang_repos "Python" 100 (by
    simp [compute_language_stats, lang_counts, lang_counts_from, counter_incr,
      sum_counts, most_common, has_language, lang_of, pget, solo_lang_repos, mk_repo])

/-- Witness for C10 at a concrete profile and empty repo/event lists. -/
theorem connect_always_present_witness :
    section_connect alice ≠ ""
    ∧ (readme_parts alice [] []).getLast? = some (section_connect alice) :=
  ⟨(connect_always_present alice [] []).2.1,
   (connect_always_present alice [] []).2.2.2⟩
